import Mathlib

/-!
Shallow embedding of the Monad_Pay relayer transaction pipeline.

The embedded code (TypeScript in the repository):
  * the Redis-backed nonce sequencer (`initNonce`, `acquireNonce`,
    `reclaimNonce`, `resyncNonce`);
  * the gas buffer (`addGasBuffer` in the gas service);
  * the relayer submission path (`executePoolTransfer`);
  * the payment service (`processTransfer`, `confirmTransaction`) over a
    Prisma `transaction` table;
  * the confirm worker's retry budget and expiry watchdog.

Machine integers of the source (JS numbers holding nonces, bigints holding
gas) are modelled as `Nat`; all relevant values are non-negative and no
overflow occurs for the modelled ranges.  Redis single-script execution is
one atomic step, so a run of the system is a sequential composition of
these steps.  Chain interactions (gas price, gas estimate, transaction
submission, receipt lookup) are modelled by an explicit gateway record so
every outcome the code distinguishes can be produced.
-/

/-- String constants used by the embedded code (error and detail messages,
currency and type tags), named so statements can refer to them. -/
def nonceNotInitMsg : String := "Nonce not initialized"

def revertedOnChainMsg : String := "Transaction reverted on-chain"

def confirmTimedOutMsg : String := "Confirmation timed out"

def currencyMON : String := "MON"

def txTypeTransfer : String := "transfer"

/-! ## Nonce sequencer (services/nonce, `src/unnamed/part_003`)

The Redis store holds at most one integer under the key `relayer:nonce`;
`counter = none` models an absent key (`GET` returning `false` in Lua). -/

structure NonceStore where
  counter : Option Nat
deriving DecidableEq, Repr

/-- `initNonce`: sets the counter to `max(chainNonce, persisted)` when a
persisted value exists, else to `chainNonce`. -/
def initNonce (chainNonce : Nat) (s : NonceStore) : NonceStore :=
  match s.counter with
  | some r => { counter := some (max chainNonce r) }
  | none => { counter := some chainNonce }

/-- `acquireNonce`: the Lua script reads the counter; if the key is absent
it raises an error (no write happens); otherwise it increments the key and
returns the pre-increment value.  The whole script is one atomic step. -/
def acquireNonce (s : NonceStore) : Except String Nat × NonceStore :=
  match s.counter with
  | none => (Except.error nonceNotInitMsg, s)
  | some c => (Except.ok c, { counter := some (c + 1) })

/-- `reclaimNonce`: the Lua script decrements the counter only when the
current value equals `nonce + 1`; otherwise (including an absent key,
where `tonumber` yields `nil` and the comparison is false) it leaves the
store unchanged and reports `0`.  The `Bool` is the reclaimed flag. -/
def reclaimNonce (nonce : Nat) (s : NonceStore) : Bool × NonceStore :=
  match s.counter with
  | some c => if c = nonce + 1 then (true, { counter := some (c - 1) }) else (false, s)
  | none => (false, s)

/-- `resyncNonce`: force-sets the counter to chain truth. -/
def resyncNonce (chainNonce : Nat) (_s : NonceStore) : NonceStore :=
  { counter := some chainNonce }

/-- A run of `n` consecutive `acquireNonce` calls, collecting the returned
sequence numbers; stops at the first error.  Because each call is one
atomic script, any interleaving of `n` concurrent calls is one such run. -/
def allocateSeq : Nat → NonceStore → Except String (List Nat) × NonceStore
  | 0, s => (Except.ok [], s)
  | n + 1, s =>
    match acquireNonce s with
    | (Except.ok k, s1) =>
      match allocateSeq n s1 with
      | (Except.ok ks, s2) => (Except.ok (k :: ks), s2)
      | (Except.error e, s2) => (Except.error e, s2)
    | (Except.error e, s1) => (Except.error e, s1)

/-! ## Gas buffer (services/gas, `addGasBuffer` in wallet service region) -/

/-- `addGasBuffer`: `(estimatedGas * 120n) / 100n` on bigints; bigint
division truncates toward zero, which on non-negative values is floor. -/
def addGasBuffer (estimatedGas : Nat) : Nat :=
  estimatedGas * 120 / 100

/-! ## Claims about the nonce sequencer and the gas buffer -/

/-- C1.  Nonce allocation is an atomic read-and-increment: from a counter
holding `c`, `acquireNonce` returns `c` and leaves the counter at `c + 1`;
consequently a run of `n` allocations from an initialized counter `start`
returns exactly the list `start, start+1, ..., start+n-1` (no repeats, no
gaps) and leaves the counter at `start + n`. -/
theorem nonce_allocation_sequential :
    (∀ c : Nat, acquireNonce ⟨some c⟩ = (Except.ok c, ⟨some (c + 1)⟩)) ∧
    (∀ start n : Nat,
      allocateSeq n ⟨some start⟩ = (Except.ok (List.range' start n), ⟨some (start + n)⟩)) := by
  refine ⟨fun c => rfl, fun start n => ?_⟩
  induction n generalizing start with
  | zero => simp [allocateSeq, List.range']
  | succ m ih =>
    simp only [allocateSeq, acquireNonce, ih (start + 1), List.range']
    have h : start + 1 + m = start + (m + 1) := by omega
    rw [h]

/-- C3.  `reclaimNonce k` decrements the counter exactly when the current
value is `k + 1`, and otherwise refuses and leaves the counter unchanged;
in particular after two allocations returning `k` and `k + 1` the counter
is `k + 2` and `reclaimNonce k` is refused, leaving it at `k + 2`. -/
theorem reclaimNonce_only_latest :
    (∀ k c : Nat,
      reclaimNonce k ⟨some c⟩ =
        if c = k + 1 then (true, ⟨some k⟩) else (false, ⟨some c⟩)) ∧
    (∀ k : Nat,
      acquireNonce ⟨some k⟩ = (Except.ok k, ⟨some (k + 1)⟩) ∧
      acquireNonce ⟨some (k + 1)⟩ = (Except.ok (k + 1), ⟨some (k + 2)⟩) ∧
      reclaimNonce k ⟨some (k + 2)⟩ = (false, ⟨some (k + 2)⟩)) := by
  constructor
  · intro k c
    by_cases h : c = k + 1
    · subst h
      simp [reclaimNonce]
    · simp [reclaimNonce, h]
  · intro k
    refine ⟨rfl, rfl, ?_⟩
    have h : ¬ (k + 2 = k + 1) := by omega
    simp [reclaimNonce, h]

/-- C10.  Calling `acquireNonce` on a store with no counter value fails
with the `Nonce not initialized` error, returns no sequence number, and
leaves the store without a counter value. -/
theorem acquireNonce_uninitialized :
    acquireNonce ⟨none⟩ = (Except.error nonceNotInitMsg, ⟨none⟩) := rfl

/-- C9.  The gas buffer is a fixed 20% margin with floor rounding:
`addGasBuffer g` is the rational floor of `g * 120 / 100`, and at the
boundary values `addGasBuffer 100 = 120` and `addGasBuffer 1 = 1`. -/
theorem addGasBuffer_spec :
    (∀ g : Nat, addGasBuffer g = ⌊(g * 120 : ℚ) / 100⌋₊) ∧
    addGasBuffer 100 = 120 ∧ addGasBuffer 1 = 1 := by
  refine ⟨fun g => ?_, rfl, rfl⟩
  have h1 : ((g * 120 : ℚ)) = ((g * 120 : ℕ) : ℚ) := by push_cast; ring
  have h2 : ((100 : ℚ)) = ((100 : ℕ) : ℚ) := by norm_num
  rw [h1, h2, Nat.floor_div_nat, Nat.floor_natCast]
  rfl

/-! ## Chain gateway and the relayer submission path (services/relayer)

`executePoolTransfer` acquires a nonce (outside the try block, so an
acquisition error propagates with no reclamation), then inside the try
block fetches the gas price, estimates gas, buffers it, and submits; the
catch block reclaims the nonce on ANY error thrown inside the try block
and rethrows.  The gateway record supplies each chain interaction's
outcome; a submission error carries a flag recording whether the node had
accepted (broadcast) the transaction before the error was thrown — the
source cannot observe this flag, which is exactly what claim C2 probes. -/

inductive SendResult where
  | ok (txHash : String)
  | err (broadcastAccepted : Bool) (message : String)
deriving DecidableEq, Repr

/-- On-chain receipt as used by `confirmTransaction` (viem receipt with a
success/reverted status and block/gas metadata). -/
structure Receipt where
  success : Bool
  gasUsed : Nat
  effectiveGasPrice : Nat
  blockNumber : Nat
deriving DecidableEq, Repr

structure Gateway where
  gasPrice : Except String Nat
  estimateGas : Except String Nat
  sendTransaction : Nat → Nat → Nat → SendResult
  getReceipt : String → Option Receipt

/-- `executePoolTransfer` (and `executePoolWithdraw`, which has the same
shape): returns the transaction hash, or the error, together with the
nonce store after the call.  The transaction payload (addresses, amount,
ref id) does not influence the modelled control flow and is omitted;
`sendTransaction` receives the gas limit, gas price and nonce the source
passes. -/
def executePoolTransfer (gw : Gateway) (s : NonceStore) :
    Except String String × NonceStore :=
  match acquireNonce s with
  | (Except.error e, s1) => (Except.error e, s1)
  | (Except.ok nonce, s1) =>
    match gw.gasPrice with
    | Except.error e => (Except.error e, (reclaimNonce nonce s1).2)
    | Except.ok gasPrice =>
      match gw.estimateGas with
      | Except.error e => (Except.error e, (reclaimNonce nonce s1).2)
      | Except.ok gasEstimate =>
        let gas := addGasBuffer gasEstimate
        match gw.sendTransaction gas gasPrice nonce with
        | SendResult.ok txHash => (Except.ok txHash, s1)
        | SendResult.err _broadcastAccepted e => (Except.error e, (reclaimNonce nonce s1).2)

/-! ## Ledger recorder (Prisma `transaction` table, services/payment)

A `TxRecord` models one row.  The source stores `amount` as
`parseFloat(formatEther(amountWei))`; since no claim involves that
conversion, the amount is kept in the smallest unit (`Nat` wei). -/

inductive TxStatus where
  | pending
  | confirmed
  | failed
  | expired
deriving DecidableEq, Repr

structure TxRecord where
  id : Nat
  senderId : String
  recipientId : String
  amount : Nat
  currency : String
  txType : String
  refId : String
  status : TxStatus
  idempotencyKey : String
  txHash : Option String
  errorMessage : Option String
  gasUsed : Option Nat
  gasPrice : Option Nat
  blockNumber : Option Nat
  confirmedAt : Option Nat
deriving DecidableEq, Repr

/-- The table, with the next fresh row id. -/
structure DB where
  txs : List TxRecord
  nextId : Nat
deriving DecidableEq, Repr

/-- `prisma.transaction.findUnique({ where: { idempotencyKey } })`. -/
def findByKey (db : DB) (k : String) : Option TxRecord :=
  db.txs.find? (fun t => t.idempotencyKey = k)

/-- `prisma.transaction.findUnique({ where: { id } })`. -/
def findById (db : DB) (i : Nat) : Option TxRecord :=
  db.txs.find? (fun t => t.id = i)

/-- `prisma.transaction.update({ where: { id }, data })`: applies `f` to
the row with the given id. -/
def updateById (db : DB) (i : Nat) (f : TxRecord → TxRecord) : DB :=
  { db with txs := db.txs.map (fun t => if t.id = i then f t else t) }

/-- The hash-attaching update of `processTransfer`
(`update({ where: { id }, data: { txHash } })`): an unconditional write of
the `txHash` column. -/
def attachTxHash (i : Nat) (txHash : String) (db : DB) : DB :=
  updateById db i (fun t => { t with txHash := some txHash })

/-! ## `processTransfer` (services/payment) -/

structure TxSubmitJob where
  refId : String
  senderUserId : String
  recipientUserId : String
  amount : Nat
  idempotencyKey : String
deriving DecidableEq, Repr

structure TransactionResult where
  refId : String
  txHash : Option String
  status : TxStatus
  amount : Nat
  currency : String
deriving DecidableEq, Repr

/-- The cached result `processTransfer` builds from an existing row on an
idempotency hit. -/
def cachedResult (t : TxRecord) : TransactionResult :=
  { refId := t.refId, txHash := t.txHash, status := t.status,
    amount := t.amount, currency := t.currency }

/-- The `pending` row `prisma.transaction.create` inserts, with the id the
store assigns. -/
def newPendingTx (job : TxSubmitJob) (txId : Nat) : TxRecord :=
  { id := txId, senderId := job.senderUserId, recipientId := job.recipientUserId,
    amount := job.amount, currency := currencyMON, txType := txTypeTransfer,
    refId := job.refId, status := TxStatus.pending,
    idempotencyKey := job.idempotencyKey, txHash := none, errorMessage := none,
    gasUsed := none, gasPrice := none, blockNumber := none, confirmedAt := none }

/-- `processTransfer`: looks up the idempotency key and returns the cached
result on a hit; otherwise creates a `pending` row, calls
`executePoolTransfer`, and on success attaches the hash while on failure
marks the row `failed` with the error message and rethrows.  Address
decryption does not affect the modelled control flow (the addresses only
feed the contract-call payload, which the gateway outcome subsumes). -/
def processTransfer (gw : Gateway) (job : TxSubmitJob) (db : DB) (ns : NonceStore) :
    Except String TransactionResult × DB × NonceStore :=
  match findByKey db job.idempotencyKey with
  | some existing => (Except.ok (cachedResult existing), db, ns)
  | none =>
    let db1 : DB := { txs := db.txs ++ [newPendingTx job db.nextId], nextId := db.nextId + 1 }
    match executePoolTransfer gw ns with
    | (Except.ok txHash, ns1) =>
      (Except.ok { refId := job.refId, txHash := some txHash, status := TxStatus.pending,
                   amount := job.amount, currency := currencyMON },
       attachTxHash db.nextId txHash db1, ns1)
    | (Except.error e, ns1) =>
      (Except.error e,
       updateById db1 db.nextId (fun t => { t with status := TxStatus.failed,
                                                   errorMessage := some e }),
       ns1)

/-! ## `confirmTransaction` (services/payment) and the confirm worker -/

/-- `confirmTransaction`: fetches the receipt for `txHash`; if the lookup
throws (receipt absent) it reports `pending` and touches nothing; on a
success receipt it finalizes the row as `confirmed` with gas and block
metadata and the confirmation time; on a reverted receipt it finalizes the
row as `failed` with the on-chain-revert detail, gas used and block
number. -/
def confirmTransaction (getReceipt : String → Option Receipt) (txHash : String)
    (transactionId : Nat) (now : Nat) (db : DB) : TxStatus × DB :=
  match getReceipt txHash with
  | none => (TxStatus.pending, db)
  | some receipt =>
    if receipt.success then
      (TxStatus.confirmed,
       updateById db transactionId (fun t =>
         { t with status := TxStatus.confirmed, gasUsed := some receipt.gasUsed,
                  gasPrice := some receipt.effectiveGasPrice,
                  blockNumber := some receipt.blockNumber, confirmedAt := some now }))
    else
      (TxStatus.failed,
       updateById db transactionId (fun t =>
         { t with status := TxStatus.failed, errorMessage := some revertedOnChainMsg,
                  gasUsed := some receipt.gasUsed,
                  blockNumber := some receipt.blockNumber }))

/-- Confirm queue configuration (`txConfirmQueue` default job options). -/
def txConfirmAttempts : Nat := 20

/-- Fixed backoff delay between confirm attempts, in milliseconds. -/
def txConfirmBackoffDelayMs : Nat := 3000

/-- The confirm worker's failed-event handler: once `attemptsMade >= 20`,
marks the row `expired` with the timeout detail (unconditionally on the
row's current state). -/
def markExpired (attemptsMade : Nat) (transactionId : Nat) (db : DB) : DB :=
  if 20 ≤ attemptsMade then
    updateById db transactionId (fun t =>
      { t with status := TxStatus.expired, errorMessage := some confirmTimedOutMsg })
  else db

/-- The confirm job under the queue's retry policy: each attempt runs
`confirmTransaction` (the receipt may differ per attempt, hence the
attempt-indexed `receipts`); a `pending` result throws, which the queue
answers with a retry while attempts remain; when the budget is exhausted
still pending, the failed-event handler runs with the final attempt
count. -/
def confirmLoop (receipts : Nat → Option Receipt) (txHash : String)
    (transactionId : Nat) (now : Nat) :
    Nat → Nat → DB → DB
  | 0, made, db => markExpired made transactionId db
  | remaining + 1, made, db =>
    match confirmTransaction (fun _ => receipts (made + 1)) txHash transactionId now db with
    | (st, db1) =>
      if st = TxStatus.pending then
        confirmLoop receipts txHash transactionId now remaining (made + 1) db1
      else db1

/-- A confirm job run with the configured attempt budget. -/
def runTxConfirmJob (receipts : Nat → Option Receipt) (txHash : String)
    (transactionId : Nat) (now : Nat) (db : DB) : DB :=
  confirmLoop receipts txHash transactionId now txConfirmAttempts 0 db

/-! ## Lookup and update lemmas -/

/-- Updating a row by id rewrites exactly the row `findById` sees, as long
as the update does not change the id column. -/
theorem findById_updateById (db : DB) (i : Nat) (f : TxRecord → TxRecord)
    (hf : ∀ t, (f t).id = t.id) :
    findById (updateById db i f) i = (findById db i).map f := by
  unfold findById updateById
  induction db.txs with
  | nil => rfl
  | cons t ts ih =>
    by_cases h : t.id = i
    · rw [List.map_cons, if_pos h, List.find?_cons_of_pos _ (by simp [hf t, h]),
        List.find?_cons_of_pos _ (by simp [h])]
      rfl
    · rw [List.map_cons, if_neg h, List.find?_cons_of_neg _ (by simp [h]),
        List.find?_cons_of_neg _ (by simp [h])]
      exact ih

/-- Updating a row by id rewrites exactly the row `findByKey` sees, as
long as the update does not change the idempotency key column. -/
theorem findByKey_updateById (db : DB) (i : Nat) (f : TxRecord → TxRecord) (k : String)
    (hf : ∀ t, (f t).idempotencyKey = t.idempotencyKey) :
    findByKey (updateById db i f) k =
      (findByKey db k).map (fun t => if t.id = i then f t else t) := by
  unfold findByKey updateById
  induction db.txs with
  | nil => rfl
  | cons t ts ih =>
    have hkey : (if t.id = i then f t else t).idempotencyKey = t.idempotencyKey := by
      by_cases hi : t.id = i
      · simp [hi, hf t]
      · simp [hi]
    by_cases h : t.idempotencyKey = k
    · rw [List.map_cons, List.find?_cons_of_pos _ (by simp [hkey, h]),
        List.find?_cons_of_pos _ (by simp [h])]
      rfl
    · rw [List.map_cons, List.find?_cons_of_neg _ (by simp [hkey, h]),
        List.find?_cons_of_neg _ (by simp [h])]
      exact ih

/-- `findByKey` over an appended row: if the key misses the existing rows
it finds the appended row when that one carries the key. -/
theorem findByKey_append_single (db : DB) (p : TxRecord) (k : String)
    (h0 : findByKey db k = none) (hp : p.idempotencyKey = k) :
    findByKey ⟨db.txs ++ [p], db.nextId + 1⟩ k = some p := by
  unfold findByKey at h0 ⊢
  rw [List.find?_append, h0, Option.none_or, List.find?_cons_of_pos _ (by simp [hp])]

/-! ## Concrete fixtures for closed statements -/

def hashAA : String := "0xaa"

def hashBB : String := "0xbb"

def refOne : String := "ref-1"

def refTwo : String := "ref-2"

def userS : String := "alice"

def userR : String := "bob"

def keyOne : String := "key-1"

def postBroadcastErrMsg : String := "connection reset while reading submit response"

/-- A gateway whose submission throws after the node accepted the
transaction (the `broadcastAccepted` flag is set), everything before it
succeeding. -/
def gwPostBroadcastErr : Gateway :=
  { gasPrice := Except.ok 1, estimateGas := Except.ok 100,
    sendTransaction := fun _ _ _ => SendResult.err true postBroadcastErrMsg,
    getReceipt := fun _ => none }

/-- A gateway on which everything succeeds. -/
def gwOk : Gateway :=
  { gasPrice := Except.ok 2, estimateGas := Except.ok 50,
    sendTransaction := fun _ _ _ => SendResult.ok hashAA,
    getReceipt := fun _ => none }

def jobA : TxSubmitJob :=
  { refId := refOne, senderUserId := userS, recipientUserId := userR,
    amount := 5, idempotencyKey := keyOne }

/-- Same idempotency key as `jobA`, different reference id. -/
def jobB : TxSubmitJob := { jobA with refId := refTwo }

def dbEmpty : DB := { txs := [], nextId := 0 }

/-- A pending row with id 0 as `processTransfer` would create it. -/
def tPend : TxRecord := newPendingTx jobA 0

def dbOne : DB := { txs := [tPend], nextId := 1 }

def tExpired : TxRecord :=
  { tPend with status := TxStatus.expired, errorMessage := some confirmTimedOutMsg }

def dbExpired : DB := { txs := [tExpired], nextId := 1 }

def tHashed : TxRecord := { tPend with txHash := some hashAA }

def dbHashed : DB := { txs := [tHashed], nextId := 1 }

/-- A success receipt. -/
def rcptOk : Receipt :=
  { success := true, gasUsed := 21000, effectiveGasPrice := 2, blockNumber := 99 }

/-! ## C2: nonce reclamation after an ambiguous (post-broadcast) failure -/

/-- C2 (claim refuted by the code; evaluation at the failing input).  With
the counter at 7, a submission whose `sendTransaction` throws after the
node accepted the transaction makes `executePoolTransfer` reclaim the
allocated nonce: the counter ends at 7, not at the 8 the claim (and the
source's own "Reclaim nonce if tx was never broadcast" comment) requires
for an unreclaimed sequence. -/
theorem executePoolTransfer_reclaims_after_broadcast :
    executePoolTransfer gwPostBroadcastErr ⟨some 7⟩ =
      (Except.error postBroadcastErrMsg, ⟨some 7⟩) ∧
    (⟨some 7⟩ : NonceStore) ≠ (⟨some 8⟩ : NonceStore) := by
  exact ⟨rfl, by decide⟩

/-! ## C4: idempotency of `processTransfer` -/

/-- The row as it stands after a successful submission attached its
hash. -/
def hashedTx (job : TxSubmitJob) (txId : Nat) (h : String) : TxRecord :=
  { newPendingTx job txId with txHash := some h }

/-- The row as it stands after a failed submission marked it `failed`. -/
def failedTx (job : TxSubmitJob) (txId : Nat) (e : String) : TxRecord :=
  { newPendingTx job txId with status := TxStatus.failed, errorMessage := some e }

/-- C4.  An idempotency key identifies at most one row: starting from a
store with no row for the key, a first `processTransfer` call leaves
exactly one row `tx` under the key, and any second call whose job carries
the same key (the reference id may differ) returns that row's cached data,
leaves the store unchanged (no new row), and is independent of the chain
gateway and of the nonce store (no on-chain submission). -/
theorem processTransfer_idempotent
    (gw1 : Gateway) (job1 job2 : TxSubmitJob) (db : DB) (ns1 : NonceStore)
    (hk : job2.idempotencyKey = job1.idempotencyKey)
    (h0 : findByKey db job1.idempotencyKey = none) :
    ∃ tx : TxRecord,
      findByKey (processTransfer gw1 job1 db ns1).2.1 job1.idempotencyKey = some tx ∧
      ∀ (gw2 : Gateway) (ns2 : NonceStore),
        processTransfer gw2 job2 (processTransfer gw1 job1 db ns1).2.1 ns2 =
          (Except.ok (cachedResult tx), (processTransfer gw1 job1 db ns1).2.1, ns2) := by
  have h1 : findByKey ⟨db.txs ++ [newPendingTx job1 db.nextId], db.nextId + 1⟩
      job1.idempotencyKey = some (newPendingTx job1 db.nextId) :=
    findByKey_append_single db _ _ h0 rfl
  rcases hE : executePoolTransfer gw1 ns1 with ⟨res, ns'⟩
  cases res with
  | ok txHash =>
    have hP : processTransfer gw1 job1 db ns1 =
        (Except.ok { refId := job1.refId, txHash := some txHash,
                     status := TxStatus.pending, amount := job1.amount,
                     currency := currencyMON },
         attachTxHash db.nextId txHash
           ⟨db.txs ++ [newPendingTx job1 db.nextId], db.nextId + 1⟩, ns') := by
      simp only [processTransfer, h0, hE]
    have h2 : findByKey (attachTxHash db.nextId txHash
        ⟨db.txs ++ [newPendingTx job1 db.nextId], db.nextId + 1⟩) job1.idempotencyKey =
        some (hashedTx job1 db.nextId txHash) := by
      unfold attachTxHash
      rw [findByKey_updateById ⟨db.txs ++ [newPendingTx job1 db.nextId], db.nextId + 1⟩
          db.nextId (fun t => { t with txHash := some txHash })
          job1.idempotencyKey (fun t => rfl), h1]
      simp [hashedTx, newPendingTx]
    refine ⟨hashedTx job1 db.nextId txHash, ?_, ?_⟩
    · rw [hP]
      exact h2
    · intro gw2 ns2
      rw [hP]
      simp only [processTransfer, hk, h2]
  | error e =>
    have hP : processTransfer gw1 job1 db ns1 =
        (Except.error e,
         updateById ⟨db.txs ++ [newPendingTx job1 db.nextId], db.nextId + 1⟩ db.nextId
           (fun t => { t with status := TxStatus.failed, errorMessage := some e }), ns') := by
      simp only [processTransfer, h0, hE]
    have h2 : findByKey (updateById
        ⟨db.txs ++ [newPendingTx job1 db.nextId], db.nextId + 1⟩ db.nextId
        (fun t => { t with status := TxStatus.failed, errorMessage := some e }))
        job1.idempotencyKey = some (failedTx job1 db.nextId e) := by
      rw [findByKey_updateById ⟨db.txs ++ [newPendingTx job1 db.nextId], db.nextId + 1⟩
          db.nextId (fun t => { t with status := TxStatus.failed, errorMessage := some e })
          job1.idempotencyKey (fun t => rfl), h1]
      simp [failedTx, newPendingTx]
    refine ⟨failedTx job1 db.nextId e, ?_, ?_⟩
    · rw [hP]
      exact h2
    · intro gw2 ns2
      rw [hP]
      simp only [processTransfer, hk, h2]

/-- C4 witness: concrete run from an empty store with two jobs sharing the
key but differing in reference id. -/
theorem processTransfer_idempotent_witness :
    ∃ tx : TxRecord,
      findByKey (processTransfer gwOk jobA dbEmpty ⟨some 7⟩).2.1 jobA.idempotencyKey =
        some tx ∧
      ∀ (gw2 : Gateway) (ns2 : NonceStore),
        processTransfer gw2 jobB (processTransfer gwOk jobA dbEmpty ⟨some 7⟩).2.1 ns2 =
          (Except.ok (cachedResult tx),
           (processTransfer gwOk jobA dbEmpty ⟨some 7⟩).2.1, ns2) :=
  processTransfer_idempotent gwOk jobA jobB dbEmpty ⟨some 7⟩ rfl rfl

/-! ## C7: receipt-outcome mapping of `confirmTransaction` -/

/-- The row as `confirmTransaction` finalizes it on a success receipt. -/
def confirmedTx (t : TxRecord) (r : Receipt) (now : Nat) : TxRecord :=
  { t with status := TxStatus.confirmed, gasUsed := some r.gasUsed,
           gasPrice := some r.effectiveGasPrice,
           blockNumber := some r.blockNumber, confirmedAt := some now }

/-- The row as `confirmTransaction` finalizes it on a reverted receipt. -/
def revertedTx (t : TxRecord) (r : Receipt) : TxRecord :=
  { t with status := TxStatus.failed, errorMessage := some revertedOnChainMsg,
           gasUsed := some r.gasUsed, blockNumber := some r.blockNumber }

/-- C7.  `confirmTransaction` maps receipt outcomes exactly as specified:
no receipt reports `pending` and changes nothing (the caller retries); a
success receipt reports `confirmed` and finalizes the row with block and
gas metadata; a reverted receipt reports `failed` and finalizes the row
with the on-chain-revert detail. -/
theorem confirmTransaction_receipt_mapping
    (getReceipt : String → Option Receipt) (txHash : String) (i now : Nat)
    (db : DB) (t : TxRecord) (hfind : findById db i = some t) :
    (getReceipt txHash = none →
      confirmTransaction getReceipt txHash i now db = (TxStatus.pending, db)) ∧
    (∀ r : Receipt, getReceipt txHash = some r → r.success = true →
      (confirmTransaction getReceipt txHash i now db).1 = TxStatus.confirmed ∧
      findById (confirmTransaction getReceipt txHash i now db).2 i =
        some (confirmedTx t r now)) ∧
    (∀ r : Receipt, getReceipt txHash = some r → r.success = false →
      (confirmTransaction getReceipt txHash i now db).1 = TxStatus.failed ∧
      findById (confirmTransaction getReceipt txHash i now db).2 i =
        some (revertedTx t r)) := by
  refine ⟨?_, ?_, ?_⟩
  · intro hnone
    simp only [confirmTransaction, hnone]
  · intro r hr hs
    simp only [confirmTransaction, hr, hs, if_true]
    refine ⟨trivial, ?_⟩
    rw [findById_updateById db i
        (fun t => { t with status := TxStatus.confirmed, gasUsed := some r.gasUsed,
                           gasPrice := some r.effectiveGasPrice,
                           blockNumber := some r.blockNumber, confirmedAt := some now })
        (fun t => rfl), hfind]
    simp [confirmedTx]
  · intro r hr hs
    simp only [confirmTransaction, hr, hs, Bool.false_eq_true, if_false]
    refine ⟨trivial, ?_⟩
    rw [findById_updateById db i
        (fun t => { t with status := TxStatus.failed,
                           errorMessage := some revertedOnChainMsg,
                           gasUsed := some r.gasUsed,
                           blockNumber := some r.blockNumber })
        (fun t => rfl), hfind]
    simp [revertedTx]

/-- C7 witness: a success receipt confirms the concrete pending row with
the receipt's metadata. -/
theorem confirmTransaction_receipt_mapping_witness :
    (confirmTransaction (fun _ => some rcptOk) hashAA 0 5 dbOne).1 = TxStatus.confirmed ∧
    findById (confirmTransaction (fun _ => some rcptOk) hashAA 0 5 dbOne).2 0 =
      some (confirmedTx tPend rcptOk 5) :=
  (confirmTransaction_receipt_mapping (fun _ => some rcptOk) hashAA 0 5 dbOne tPend
    rfl).2.1 rcptOk rfl rfl

/-! ## C5: monotonicity of terminal statuses -/

/-- C5 counterexample.  The store holds one row in the terminal status
`expired`; a later `confirmTransaction` call that finds a success receipt
overwrites it to `confirmed` — a transition out of a terminal state,
refuting the claim at this input. -/
theorem confirmTransaction_overwrites_terminal :
    findById dbExpired 0 = some tExpired ∧
    tExpired.status = TxStatus.expired ∧
    (confirmTransaction (fun _ => some rcptOk) hashAA 0 5 dbExpired).1 =
      TxStatus.confirmed ∧
    findById (confirmTransaction (fun _ => some rcptOk) hashAA 0 5 dbExpired).2 0 =
      some (confirmedTx tExpired rcptOk 5) ∧
    (confirmedTx tExpired rcptOk 5).status ≠ tExpired.status := by
  exact ⟨rfl, rfl, rfl, rfl, by decide⟩

/-- C5 as amended.  The terminal-state guard is absent: statuses are
stable only under invocations that find no receipt.  A `confirmTransaction`
call that finds no receipt changes neither status nor detail of any row; a
call that finds a success receipt overwrites the row to `confirmed`
regardless of its prior (possibly terminal) status; and the watchdog
overwrites the row to `expired` regardless of its prior status once the
attempt count reaches 20. -/
theorem confirmTransaction_terminal_stability :
    (∀ (getReceipt : String → Option Receipt) (txHash : String) (i now : Nat) (db : DB),
      getReceipt txHash = none →
      confirmTransaction getReceipt txHash i now db = (TxStatus.pending, db)) ∧
    (∀ (getReceipt : String → Option Receipt) (txHash : String) (i now : Nat) (db : DB)
      (t : TxRecord) (r : Receipt),
      findById db i = some t → getReceipt txHash = some r → r.success = true →
      findById (confirmTransaction getReceipt txHash i now db).2 i =
        some (confirmedTx t r now)) ∧
    (∀ (n i : Nat) (db : DB) (t : TxRecord),
      findById db i = some t → 20 ≤ n →
      findById (markExpired n i db) i =
        some { t with status := TxStatus.expired,
                      errorMessage := some confirmTimedOutMsg }) := by
  refine ⟨?_, ?_, ?_⟩
  · intro getReceipt txHash i now db hnone
    simp only [confirmTransaction, hnone]
  · intro getReceipt txHash i now db t r hfind hr hs
    simp only [confirmTransaction, hr, hs, if_true]
    rw [findById_updateById db i
        (fun t => { t with status := TxStatus.confirmed, gasUsed := some r.gasUsed,
                           gasPrice := some r.effectiveGasPrice,
                           blockNumber := some r.blockNumber, confirmedAt := some now })
        (fun t => rfl), hfind]
    simp [confirmedTx]
  · intro n i db t hfind hn
    unfold markExpired
    rw [if_pos hn, findById_updateById db i
        (fun t => { t with status := TxStatus.expired,
                           errorMessage := some confirmTimedOutMsg })
        (fun t => rfl), hfind]
    rfl

/-- C5 amended-claim witness: the watchdog expires the concrete pending
row once 20 attempts were made. -/
theorem confirmTransaction_terminal_stability_witness :
    findById (markExpired 20 0 dbOne) 0 =
      some { tPend with status := TxStatus.expired,
                        errorMessage := some confirmTimedOutMsg } :=
  confirmTransaction_terminal_stability.2.2 20 0 dbOne tPend rfl (by decide)

/-! ## C6: hash attachment -/

/-- C6 counterexample.  A row already holding hash `0xaa` is given to the
attach operation with hash `0xbb`: the stored hash is silently replaced,
refuting the claim that a second attach leaves it unchanged. -/
theorem attachTxHash_overwrites :
    findById dbHashed 0 = some tHashed ∧
    tHashed.txHash = some hashAA ∧
    findById (attachTxHash 0 hashBB dbHashed) 0 =
      some { tHashed with txHash := some hashBB } ∧
    some hashBB ≠ some hashAA := by
  exact ⟨rfl, rfl, rfl, by decide⟩

/-- C6 as amended.  The attach operation overwrites unconditionally: it
sets the stored hash to the new value whatever was there before (no no-op
or error guard).  A record's hash is written at most once per record only
because `processTransfer` attaches solely to the row it just created: a
call whose idempotency key already has a row returns before any attach,
leaving the store — hence every stored hash — unchanged. -/
theorem attachTxHash_unconditional
    : (∀ (i : Nat) (h : String) (db : DB) (t : TxRecord),
        findById db i = some t →
        findById (attachTxHash i h db) i = some { t with txHash := some h }) ∧
      (∀ (gw : Gateway) (job : TxSubmitJob) (db : DB) (ns : NonceStore) (tx : TxRecord),
        findByKey db job.idempotencyKey = some tx →
        (processTransfer gw job db ns).2.1 = db) := by
  constructor
  · intro i h db t hfind
    unfold attachTxHash
    rw [findById_updateById db i (fun t => { t with txHash := some h })
        (fun t => rfl), hfind]
    rfl
  · intro gw job db ns tx hhit
    simp only [processTransfer, hhit]

/-- C6 amended-claim witness: attaching `0xbb` to the concrete hash-free
pending row stores `0xbb`. -/
theorem attachTxHash_unconditional_witness :
    findById (attachTxHash 0 hashBB dbOne) 0 =
      some { tPend with txHash := some hashBB } :=
  attachTxHash_unconditional.1 0 hashBB dbOne tPend rfl

/-! ## C8: exhausted confirmation budget marks `expired` -/

/-- Helper: while every attempt finds no receipt, each loop iteration
reports `pending` and changes nothing, so the run ends in the watchdog
with the accumulated attempt count. -/
theorem confirmLoop_all_absent (receipts : Nat → Option Receipt) (txHash : String)
    (i now : Nat) (hall : ∀ a, receipts a = none) :
    ∀ (remaining made : Nat) (db : DB),
      confirmLoop receipts txHash i now remaining made db =
        markExpired (made + remaining) i db := by
  intro remaining
  induction remaining with
  | zero =>
    intro made db
    simp [confirmLoop]
  | succ r ih =>
    intro made db
    simp only [confirmLoop, confirmTransaction, hall (made + 1)]
    rw [if_pos trivial, ih (made + 1) db]
    have h : made + 1 + r = made + (r + 1) := by omega
    rw [h]

/-- C8.  When every one of the confirm attempts finds no receipt (the
transaction stays pending), the run of the confirm job under its
configured budget — 20 attempts at a fixed 3-second backoff — ends with
the watchdog setting the row to `expired` with the timeout detail, a
status distinct from `failed`. -/
theorem confirm_budget_exhaustion_expires
    (receipts : Nat → Option Receipt) (txHash : String) (i now : Nat)
    (db : DB) (t : TxRecord)
    (hall : ∀ a, receipts a = none) (hfind : findById db i = some t) :
    findById (runTxConfirmJob receipts txHash i now db) i =
      some { t with status := TxStatus.expired,
                    errorMessage := some confirmTimedOutMsg } ∧
    TxStatus.expired ≠ TxStatus.failed ∧
    txConfirmAttempts = 20 ∧ txConfirmBackoffDelayMs = 3000 := by
  refine ⟨?_, by decide, rfl, rfl⟩
  unfold runTxConfirmJob
  rw [confirmLoop_all_absent receipts txHash i now hall txConfirmAttempts 0 db]
  unfold markExpired
  rw [if_pos (by decide), findById_updateById db i
      (fun t => { t with status := TxStatus.expired,
                         errorMessage := some confirmTimedOutMsg })
      (fun t => rfl), hfind]
  rfl

/-- C8 witness: a run over the concrete pending row with every receipt
lookup absent ends `expired` with the timeout detail. -/
theorem confirm_budget_exhaustion_expires_witness :
    findById (runTxConfirmJob (fun _ => none) hashAA 0 5 dbOne) 0 =
      some { tPend with status := TxStatus.expired,
                        errorMessage := some confirmTimedOutMsg } ∧
    TxStatus.expired ≠ TxStatus.failed ∧
    txConfirmAttempts = 20 ∧ txConfirmBackoffDelayMs = 3000 :=
  confirm_budget_exhaustion_expires (fun _ => none) hashAA 0 5 dbOne tPend
    (fun _ => rfl) rfl
